import Mathlib

/-!
Verification development for the gevent-based asynchronous RPC runtime in
`cms/async/GeventLibrary.py`.  The Python source is shallowly embedded:
pure fragments become Lean functions, stateful methods become explicit
state-passing functions, socket and greenlet effects become explicit
oracle parameters (dial outcomes, `send` results, received chunks), and
Python exceptions become `Except` values.  Line numbers in the comments
refer to `src/cms/async/GeventLibrary.py`.
-/

namespace CmsAsync

/-- JSON-like values carried in the `__data` field of an envelope. -/
inductive J where
  | null
  | bool (b : Bool)
  | num (n : Int)
  | str (s : String)
  | arr (elts : List J)
  | obj (fields : List (String × J))

/-- Python truthiness of a JSON value (`if ret:` in the timer helper). -/
def truthy : J → Bool
  | .null => false
  | .bool b => b
  | .num n => n != 0
  | .str s => s != ""
  | .arr xs => !xs.isEmpty
  | .obj fs => !fs.isEmpty

/-- The `ServiceCoord` identifier from `cms.async`: a service name and a shard number. -/
structure ServiceCoord where
  name : String
  shard : Nat
deriving DecidableEq

/-- The `Address` pair from `cms.async`: a host and a port. -/
structure Address where
  host : String
  port : Nat
deriving DecidableEq

/-- The external service directory: `get_service_address` resolves a
coordinate to an address or raises `KeyError` (modelled as `none`). -/
def Directory : Type := ServiceCoord → Option Address

/-- Python exception values observed by this module.  `AuthorizationError`
is defined in `cms.async.AsyncLibrary` as a plain `Exception` subclass. -/
inductive PyExc where
  | keyError (msg : String)
  | authorizationError (msg : String)
  | valueError (msg : String)
  | attributeError (msg : String)
  | other (cls : String) (msg : String)
deriving DecidableEq

/-- Python's `exception.__class__.__name__` for the exceptions above. -/
def PyExc.clsName : PyExc → String
  | .keyError _ => "KeyError"
  | .authorizationError _ => "AuthorizationError"
  | .valueError _ => "ValueError"
  | .attributeError _ => "AttributeError"
  | .other c _ => c

/-- The ASCII single-quote character that Python's `repr` puts around a
string (written by code point to keep it out of string literals). -/
def pyQuote : Char := '\x27'

/-- A string wrapped in single quotes, as `repr` renders a plain string
(valid for messages containing no quote or backslash characters, which is
the case for every message this module builds). -/
def quoted (s : String) : String :=
  String.singleton pyQuote ++ s ++ String.singleton pyQuote

/-- Python's `str(exception)`, i.e. what `"%s" % exception` interpolates.
`KeyError.__str__` renders its argument with `repr`, so the message gains
surrounding quotes; plain `Exception` subclasses render the bare message. -/
def PyExc.toStr : PyExc → String
  | .keyError m => quoted m
  | .authorizationError m => m
  | .valueError m => m
  | .attributeError m => m
  | .other _ m => m

/-- The `"%s: %s\n%s" % (exception.__class__.__name__, exception,
traceback.format_exc())` formatting used at lines 349-351 and 368-370.
The traceback text `tb` is opaque to the model. -/
def formatExc (e : PyExc) (tb : String) : String :=
  e.clsName ++ ": " ++ e.toStr ++ "\n" ++ tb

/-- Boolean string-prefix test (used to state the spec's
"begins with" properties). -/
def strStarts (p s : String) : Bool :=
  p.data.isPrefixOf s.data

/-- A bound method of the local service as the dispatcher sees it:
`reprStr` is what `"%s" % method` interpolates (the bound-method repr),
`rpc_callable` is `hasattr(method, "rpc_callable")` (set by the
`@rpc_method` decorator), `threaded` is `hasattr(method, "threaded")`
(set by `@rpc_threaded`), and `run` is the handler's behaviour on the
keyword arguments taken from `__data`. -/
structure PyMethod where
  reprStr : String
  rpc_callable : Bool
  threaded : Bool
  run : J → Except PyExc J

/-- Result dictionary of `Service.method_info` (lines 242-246). -/
structure MethodInfo where
  callable : Bool
  threaded : Bool
deriving DecidableEq

/-- A decoded inbound envelope, as a Python dict with the three fields the
runtime reads: `__method`, `__data` and `__id`; `none` models the absence
of the key (`"__method" in message`, `"__data" not in message`,
`"__id" in message`). -/
structure InMessage where
  method : Option String
  data : Option J
  id : Option String

/-- The response dict built by `RemoteService.process_data` and filled in
by `send_reply`: `__id` (present iff the request carried one), `__data`
(`None` ↦ `J.null`), `__error` (`None` ↦ `none`). -/
structure OutResponse where
  id : Option String
  data : J
  error : Option String

/-- One entry of the `Service._timeouts` heap:
`(next_timeout, seconds, function, plus)` (lines 60-63, 120-123).
Wall-clock times and periods are modelled as rationals; the function
itself is opaque and identified by a name, its behaviour being supplied
as an oracle where needed. -/
structure TimeoutEntry where
  next_timeout : ℚ
  seconds : ℚ
  func : String
  plus : Option J

/-- State of a `RemoteService` object (lines 285-308): the coordinate
(`remote_service_coord`, which `__init__` sets to `""` — modelled `none` —
for accepted connections), the address, the `connected` flag, and whether
the `socket` attribute has been installed by `_initialize_channel`. -/
structure RemoteService where
  remote_service_coord : Option ServiceCoord
  address : Address
  connected : Bool
  hasSocket : Bool

/-- State of a `Service` object.  The fields mirror the attributes set in
`Service.__init__` (lines 50-81).  Python's object heap for
`RemoteService` instances is modelled by `store`/`nextRef`, and the two
registries `remote_services` / `on_remote_service_connected` map a
coordinate to a reference into the store resp. to the identity of the
registered callback (callbacks themselves are opaque, identified by a
`Nat`).  `methods` models `getattr(self, name)` for bound methods
together with the decorator attributes the dispatcher inspects. -/
structure Service where
  shard : Nat
  _timeouts : List TimeoutEntry
  _exit : Bool
  remote_services : ServiceCoord → Option Nat
  on_remote_service_connected : ServiceCoord → Option Nat
  _my_coord : ServiceCoord
  server : Option Address
  methods : String → Option PyMethod
  store : Nat → Option RemoteService
  nextRef : Nat

end CmsAsync

namespace CmsAsync

/-- The directory lookup `get_service_address` (external, from `cms.async`): raises `KeyError`
when the coordinate is not configured. -/
def get_service_address (dir : Directory) (coord : ServiceCoord) :
    Except PyExc Address :=
  match dir coord with
  | none => .error (.keyError coord.name)
  | some a => .ok a

/-- Model of `Service.__init__` (lines 50-81): resolution of the service's own
coordinate is attempted under `try/except KeyError`; on failure `address`
is `None` and the `server` attribute is never assigned (modelled by
`server := none`). -/
def Service.init (dir : Directory) (className : String) (shard : Nat)
    (methods : String → Option PyMethod) : Service :=
  let coord : ServiceCoord := ⟨className, shard⟩
  { shard := shard
    _timeouts := []
    _exit := false
    remote_services := fun _ => none
    on_remote_service_connected := fun _ => none
    _my_coord := coord
    server := dir coord
    methods := methods
    store := fun _ => none
    nextRef := 0 }

/-- How far `Service.run` (lines 132-146) gets.  The statement
`self.server.start()` is executed before the `try:` block; if `__init__`
never assigned `self.server` it raises `AttributeError`, which propagates
out of `run` uncaught.  Otherwise the scheduler `while` loop is entered. -/
inductive RunEntry where
  | enteredLoop
  | raisedAttributeError
deriving DecidableEq

/-- Model of `Service.run` up to entering the scheduler loop (lines 132-138). -/
def Service.run (s : Service) : RunEntry :=
  match s.server with
  | none => .raisedAttributeError
  | some _ => .enteredLoop

/-- Model of `Service.method_info` (lines 229-246): `getattr` failure is re-raised
as `KeyError("Service has no method " + method_name)`; otherwise the info
dict records `hasattr(method, "rpc_callable")` and
`hasattr(method, "threaded")`. -/
def Service.method_info (s : Service) (method_name : String) :
    Except PyExc MethodInfo :=
  match s.methods method_name with
  | none => .error (.keyError ("Service has no method " ++ method_name))
  | some m => .ok { callable := m.rpc_callable, threaded := m.threaded }

/-- Model of `Service.handle_message` (lines 248-273): missing method raises
`KeyError`; a method without the `rpc_callable` attribute raises
`AuthorizationError("Method %s not callable from RPC" % method)` — note
that `%s` interpolates the bound method object, i.e. its repr, not the
bare name; a message without `__data` raises
`ValueError("No data present.")`; otherwise the handler runs on the
`__data` keyword arguments. -/
def Service.handle_message (s : Service) (msg : InMessage) : Except PyExc J :=
  match msg.method with
  | none => .error (.keyError "__method")
  | some name =>
    match s.methods name with
    | none => .error (.keyError ("Service has no method " ++ name))
    | some m =>
      if !m.rpc_callable then
        .error (.authorizationError
          ("Method " ++ m.reprStr ++ " not callable from RPC"))
      else
        match msg.data with
        | none => .error (.valueError "No data present.")
        | some d => m.run d

/-- The observable effect of one `RemoteService.process_data` call
(lines 321-384): either a reply dict is handed to `send_reply`, or a
pending request is completed, or a warning is logged and the frame
dropped. -/
inductive ProcessEffect where
  | reply (resp : OutResponse)
  | completeRequest (ident : String)
  | warnDecodeError
  | warnNoId
  | warnUnknownId (ident : String)

/-- The `__method` branch of `process_data` (lines 337-372): build the
response skeleton (echoing `__id` when present), query `method_info`
catching `KeyError`, reject threaded methods, and otherwise run
`handle_message` catching every exception; `tb` stands for the
`traceback.format_exc()` text of the moment. -/
def dispatchRequest (s : Service) (name : String) (msg : InMessage)
    (tb : String) : OutResponse :=
  let respId := msg.id
  match s.method_info name with
  | .error e =>
      { id := respId, data := J.null, error := some (formatExc e tb) }
  | .ok info =>
      if info.threaded then
        { id := respId, data := J.null, error := some "Threaded RPC unsupported" }
      else
        match s.handle_message msg with
        | .error e =>
            { id := respId, data := J.null, error := some (formatExc e tb) }
        | .ok result =>
            { id := respId, data := result, error := none }

/-- Model of `RemoteService.process_data` (lines 321-384).  `decoded = none` models
a `decode_json` failure; `pending` tells whether an id is present in
`RPCRequest.pending_requests` (that table lives in
`cms.async.AsyncLibrary`, outside this file's sources, so only its
membership test is abstracted). -/
def RemoteService.process_data (s : Service) (decoded : Option InMessage)
    (pending : String → Bool) (tb : String) : ProcessEffect :=
  match decoded with
  | none => .warnDecodeError
  | some msg =>
    match msg.method with
    | some name => .reply (dispatchRequest s name msg tb)
    | none =>
      match msg.id with
      | none => .warnNoId
      | some ident =>
          if pending ident then .completeRequest ident
          else .warnUnknownId ident

end CmsAsync

namespace CmsAsync

/-- The two-byte frame terminator `\r\n`. -/
def crlf : List Char := ['\r', '\n']

/-- Prepend a character to the first segment of a split result (the
effect one more leading character has on `s.split('\r\n')` when it does
not create a new separator occurrence). -/
def consHead (c : Char) : List (List Char) → List (List Char)
  | [] => [[c]]
  | s :: ss => (c :: s) :: ss

/-- Python's `buffer.split('\r\n')` (line 406): split at every
(necessarily non-overlapping) occurrence of the two-character terminator;
the result always has one more segment than there are occurrences. -/
def splitCRLF : List Char → List (List Char)
  | [] => [[]]
  | [c] => [[c]]
  | c₁ :: c₂ :: rest =>
    if c₁ = '\r' ∧ c₂ = '\n' then [] :: splitCRLF rest
    else consHead c₁ (splitCRLF (c₂ :: rest))

/-- Returns `true` iff the terminator `\r\n` occurs nowhere in the string — the
codec's guarantee for encoded frames (spec §4.1: JSON with no embedded
literal `\r\n`). -/
def noCRLF : List Char → Bool
  | [] => true
  | [_] => true
  | c₁ :: c₂ :: rest => !(c₁ = '\r' && c₂ = '\n') && noCRLF (c₂ :: rest)

/-- A wire stream carrying the frames `E₁, E₂, …`, each followed by the
terminator (spec §4.1). -/
def joinFrames (frames : List (List Char)) : List Char :=
  (frames.map (fun E => E ++ crlf)).flatten

/-- Result of one iteration of the read loop `RemoteService._loop`
(lines 402-415): the (unchanged) peer, the carried-over `inbox`
remainder, the complete segments handed to `process_data`, and whether
the `if buf == b'': break` fired. -/
structure LoopIterResult where
  peer : RemoteService
  inbox : List Char
  delivered : List (List Char)
  terminated : Bool

/-- One iteration of `RemoteService._loop` (lines 404-415): receive
`buf`, split `inbox ++ buf` on the terminator, keep the last segment as
the new inbox, hand every other segment to `process_data`, and break on
a zero-byte read.  The loop body writes no attribute of the peer other
than `inbox` is a local variable; in particular it never assigns
`self.connected`. -/
def RemoteService._loop_iter (r : RemoteService) (inbox buf : List Char) :
    LoopIterResult :=
  let splits := splitCRLF (inbox ++ buf)
  { peer := r
    inbox := splits.getLastD []
    delivered := splits.dropLast
    terminated := buf.isEmpty }

/-- The whole read loop of `RemoteService._loop`, driven by the sequence
of `recv` results: `chunks` are the successive non-empty reads, after
which `recv` returns the empty buffer (remote close).  Returns every
segment handed to `process_data`, in order.  An empty chunk inside the
list behaves like the source: the loop still processes the split and
then breaks. -/
def loopDeliveries : List (List Char) → List Char → List (List Char)
  | [], inbox =>
      (splitCRLF inbox).dropLast
  | buf :: rest, inbox =>
      let splits := splitCRLF (inbox ++ buf)
      if buf.isEmpty then splits.dropLast
      else splits.dropLast ++ loopDeliveries rest (splits.getLastD [])

/-- Model of `RemoteService._initialize_channel` (lines 310-319): install the
socket, set `connected = True` (and spawn the read loop). -/
def RemoteService._initialize_channel (r : RemoteService) : RemoteService :=
  { r with hasSocket := true, connected := true }

/-- Model of `RemoteService.connect_remote_service` (lines 417-428): dial the
address; on success initialize the channel, on failure swallow the
exception and leave the peer untouched.  The dial outcome is an oracle. -/
def RemoteService.connect_remote_service (r : RemoteService)
    (dialOk : Bool) : RemoteService :=
  if dialOk then r._initialize_channel else r

/-- Outcome of one `socket.send` call inside `_push_right`: either some
number of bytes was written, or the call raised. -/
inductive SendResult where
  | sent (n : Nat)
  | err
deriving DecidableEq

/-- The drain loop of `RemoteService._push_right` (lines 513-524), the
buffer already carrying the terminator.  Each `socket.send` outcome is
taken from the oracle list: `sent n` advances the buffer by `n` and, if
`n = 0`, logs, sets `self.connected = False` and returns `False`; `err`
is the `except` branch, which returns `False` without touching
`connected`.  (An exhausted oracle with a non-empty buffer is a modelling
artifact returning failure; the theorems never rely on it.) -/
def pushLoop (r : RemoteService) : List Char → List SendResult →
    RemoteService × Bool
  | [], _ => (r, true)
  | _ :: _, [] => (r, false)
  | _ :: _, .err :: _ => (r, false)
  | c :: cs, .sent n :: rest =>
      let remaining := (c :: cs).drop n
      if n = 0 then ({ r with connected := false }, false)
      else pushLoop r remaining rest

/-- Model of `RemoteService._push_right` (lines 505-524): append `\r\n` to the
data and drain it through `socket.send`. -/
def RemoteService._push_right (r : RemoteService) (data : List Char)
    (sends : List SendResult) : RemoteService × Bool :=
  pushLoop r (data ++ crlf) sends

/-- Observable outcome of `RemoteService.execute_rpc` (lines 430-485). -/
inductive ExecOutcome where
  | notConnected
  | completedError (msg : String)
  | started
deriving DecidableEq

/-- Model of `RemoteService.execute_rpc` (lines 430-485): inline re-dial when not
connected, then build the request, register the `RPCRequest` (that class
lives in `cms.async.AsyncLibrary`; only the effect of its
`complete({"__error": ...})` is observed, as `ExecOutcome.completedError`),
encode (`encoded = none` models an encoding `ValueError`) and push.  A
falsy push result completes the request with `"Transfer interrupted"`. -/
def RemoteService.execute_rpc (r : RemoteService) (method : String)
    (dialOk : Bool) (encoded : Option (List Char))
    (sends : List SendResult) : RemoteService × ExecOutcome :=
  let r₁ := if r.connected then r else r.connect_remote_service dialOk
  if !r₁.connected then (r₁, .notConnected)
  else
    match encoded with
    | none =>
        (r₁, .completedError
          ("Cannot send request of method " ++ method ++
           " because of encoding error."))
    | some json_message =>
        let res := r₁._push_right json_message sends
        if res.2 then (res.1, .started)
        else (res.1, .completedError "Transfer interrupted")

end CmsAsync

namespace CmsAsync

/-- Heap order of `heapq` entries, keyed by `next_timeout` (ties between
equal deadlines are broken arbitrarily by `heapq`; none of the stated
properties depends on the tie order). -/
def entryLE (a b : TimeoutEntry) : Prop :=
  a.next_timeout ≤ b.next_timeout

instance : DecidableRel entryLE := fun a b =>
  inferInstanceAs (Decidable (a.next_timeout ≤ b.next_timeout))

/-- Model of `heapq.heappush` on the timer heap, the heap being modelled as a list
sorted by `next_timeout` (the heap invariant: the head is the earliest
pending fire time). -/
def heapPush (h : List TimeoutEntry) (e : TimeoutEntry) : List TimeoutEntry :=
  List.orderedInsert entryLE e h

/-- The drain loop of `Service._trigger` (lines 179-200): while the heap
is non-empty and `current > next_timeout` holds for its head, pop the
head (it is spawned for execution); stop at the first head that does not
satisfy the strict comparison.  Returns the popped entries in pop order
and the remaining heap. -/
def triggerDrain (current : ℚ) :
    List TimeoutEntry → List TimeoutEntry × List TimeoutEntry
  | [] => ([], [])
  | e :: rest =>
      if e.next_timeout < current then
        let p := triggerDrain current rest
        (e :: p.1, p.2)
      else ([], e :: rest)

/-- The inner `helper` of `Service._trigger` (lines 187-198), run inside a
freshly spawned greenlet with the popped `timeout_data`.  The call
`func(plus)`/`func()` is the oracle `outcome`: on a normal return `ret`,
a truthy value re-pushes the entry with `next_timeout + seconds` (the new
deadline is anchored to the entry's original deadline, not to the current
time, which `helper` does not even receive); a falsy value re-pushes
nothing.  If the call raises, the greenlet dies before reaching
`heappush`, so the heap is untouched (gevent confines the exception to
the spawned greenlet). -/
def helper (timeout_data : TimeoutEntry) (outcome : Except PyExc J)
    (h : List TimeoutEntry) : List TimeoutEntry :=
  match outcome with
  | .error _ => h
  | .ok ret =>
      if truthy ret then
        heapPush h { timeout_data with
          next_timeout := timeout_data.next_timeout + timeout_data.seconds }
      else h

/-- Model of `Service._trigger` (lines 165-206) minus the `_reconnect()` sweep
(lines 148-163), which touches only the peer registry — modelled
separately through `connect_remote_service` — and neither `_timeouts` nor
`_exit`.  Returns the service with the drained heap, the entries handed
to `gevent.spawn(helper, ...)`, and the computed sleep interval
`max(0, min(maximum, head.next_timeout - current))`. -/
def Service._trigger (s : Service) (current maximum : ℚ) :
    Service × List TimeoutEntry × ℚ :=
  let p := triggerDrain current s._timeouts
  let next₁ := maximum
  let next₂ :=
    match p.2 with
    | [] => next₁
    | e :: _ => min next₁ (e.next_timeout - current)
  ({ s with _timeouts := p.2 }, p.1, max 0 next₂)

/-- The `while not self._exit` guard of the scheduler loop in
`Service.run` (line 138). -/
def loopContinues (s : Service) : Bool :=
  !s._exit

/-- Model of `Service.connect_to` (lines 95-107): register the callback for the
coordinate, then construct a fresh `RemoteService(self, service)` —
whose `__init__` resolves the coordinate through the directory and sets
`connected = False` without installing a socket — and register it,
unconditionally overwriting both map entries.  The callback write
happens first, so a resolution failure propagates with the callback
already replaced.  The fresh object is allocated at `nextRef`. -/
def Service.connect_to (dir : Directory) (s : Service)
    (service : ServiceCoord) (on_connect : Option Nat) :
    Service × Except PyExc Nat :=
  let s₁ := { s with
    on_remote_service_connected := fun c =>
      if c = service then on_connect else s.on_remote_service_connected c }
  match get_service_address dir service with
  | .error e => (s₁, .error e)
  | .ok addr =>
      let fresh : RemoteService :=
        { remote_service_coord := some service
          address := addr
          connected := false
          hasSocket := false }
      let ref := s₁.nextRef
      ({ s₁ with
          store := fun n => if n = ref then some fresh else s₁.store n
          nextRef := ref + 1
          remote_services := fun c =>
            if c = service then some ref else s₁.remote_services c },
       .ok ref)

end CmsAsync

namespace CmsAsync

/-! Concrete fixtures used by counterexamples and witnesses. -/

/-- A service skeleton with a given method table and no listener. -/
def baseService (methods : String → Option PyMethod) : Service :=
  { shard := 0
    _timeouts := []
    _exit := false
    remote_services := fun _ => none
    on_remote_service_connected := fun _ => none
    _my_coord := ⟨"TestService", 0⟩
    server := none
    methods := methods
    store := fun _ => none
    nextRef := 0 }

/-- A method carrying the `threaded` attribute but not `rpc_callable`. -/
def secretMethod : PyMethod :=
  { reprStr := "<bound method TestService.secret of <TestService object>>"
    rpc_callable := false
    threaded := true
    run := fun _ => .ok .null }

/-- A method carrying neither `rpc_callable` nor `threaded`. -/
def hiddenMethod : PyMethod :=
  { reprStr := "<bound method TestService.hidden of <TestService object>>"
    rpc_callable := false
    threaded := false
    run := fun _ => .ok .null }

/-- A service with no RPC-visible methods at all. -/
def svcEmpty : Service := baseService (fun _ => none)

/-- A service exposing only the threaded, non-callable `secret`. -/
def svcSecret : Service :=
  baseService (fun n => if n = "secret" then some secretMethod else none)

/-- A service exposing only the non-callable, non-threaded `hidden`. -/
def svcHidden : Service :=
  baseService (fun n => if n = "hidden" then some hiddenMethod else none)

/-- A concrete address. -/
def addrLocal : Address := ⟨"127.0.0.1", 21000⟩

/-- A peer whose channel is up (`connected = True`, socket installed). -/
def peerUp : RemoteService :=
  { remote_service_coord := none
    address := addrLocal
    connected := true
    hasSocket := true }

/-- A timer entry whose deadline is exactly 5. -/
def entFive : TimeoutEntry := ⟨5, 1, "f", none⟩

/-- A timer entry with deadline 3. -/
def entA : TimeoutEntry := ⟨3, 1, "f", none⟩

/-- A timer entry with deadline 7. -/
def entB : TimeoutEntry := ⟨7, 1, "g", none⟩

/-- A timer entry with deadline 3 and period 2. -/
def entC7 : TimeoutEntry := ⟨3, 2, "tick", none⟩

/-- A peer coordinate. -/
def coordW : ServiceCoord := ⟨"Peer", 1⟩

/-- A directory resolving only `coordW`. -/
def dirW : Directory := fun c => if c = coordW then some addrLocal else none

/-! Shared helper lemmas. -/

/-- A list is a Boolean prefix of itself followed by anything. -/
theorem isPrefixOf_append_self (l₁ l₂ : List Char) :
    l₁.isPrefixOf (l₁ ++ l₂) = true := by
  induction l₁ with
  | nil => simp [List.isPrefixOf]
  | cons a as ih => simp [List.isPrefixOf, ih]

/-- A list is a Boolean prefix of itself. -/
theorem isPrefixOf_rfl (l : List Char) : l.isPrefixOf l = true := by
  induction l with
  | nil => simp [List.isPrefixOf]
  | cons a as ih => simp [List.isPrefixOf, ih]

/-- Appending on the right preserves the Boolean prefix test. -/
theorem isPrefixOf_append_right (l₁ l₂ l₃ : List Char)
    (h : l₁.isPrefixOf l₂ = true) : l₁.isPrefixOf (l₂ ++ l₃) = true := by
  induction l₁ generalizing l₂ with
  | nil => simp [List.isPrefixOf]
  | cons a as ih =>
    cases l₂ with
    | nil => simp [List.isPrefixOf] at h
    | cons b bs =>
      simp only [List.cons_append, List.isPrefixOf, Bool.and_eq_true] at h ⊢
      exact ⟨h.1, ih bs h.2⟩

/-- Prefixing: `strStarts p (p ++ rest)` always holds. -/
theorem strStarts_append_self (p rest : String) :
    strStarts p (p ++ rest) = true := by
  simp [strStarts, String.data_append, isPrefixOf_append_self]

/-- A string prefix survives appending more text. -/
theorem strStarts_mono (p s t : String) (h : strStarts p s = true) :
    strStarts p (s ++ t) = true := by
  simp only [strStarts, String.data_append]
  exact isPrefixOf_append_right _ _ _ h

/-- Every string starts with itself. -/
theorem strStarts_refl (p : String) : strStarts p p = true :=
  isPrefixOf_rfl p.data

/-- The `_push_right` drain loop either leaves the peer untouched or
exactly clears its `connected` flag; no other mutation exists. -/
theorem pushLoop_connected_cases (r : RemoteService) :
    ∀ (sends : List SendResult) (toPush : List Char),
      (pushLoop r toPush sends).1 = r ∨
      (pushLoop r toPush sends).1 = { r with connected := false } := by
  intro sends
  induction sends with
  | nil => intro toPush; cases toPush <;> simp [pushLoop]
  | cons s rest ih =>
    intro toPush
    cases toPush with
    | nil => simp [pushLoop]
    | cons c cs =>
      cases s with
      | err => simp [pushLoop]
      | sent n =>
        by_cases hn : n = 0
        · simp [pushLoop, hn]
        · simpa [pushLoop, hn] using ih ((c :: cs).drop n)

/-! Claim theorems. -/

/-- C1: the claim says a Service whose own-coordinate resolution failed
still enters the scheduler loop when `run()` is called.  In the source,
`__init__` swallows the `KeyError` and simply never assigns
`self.server`, but `run()` executes `self.server.start()` *before* its
`try:` block, so it raises `AttributeError` instead of entering the
loop; with a resolvable coordinate the loop is entered.  This theorem
evaluates `run` on both kinds of service. -/
theorem c1_run_after_failed_resolution :
    Service.run (Service.init (fun _ => none) "FailService" 0 (fun _ => none))
      = RunEntry.raisedAttributeError
  ∧ Service.run (Service.init (fun _ => some addrLocal) "OkService" 0
        (fun _ => none))
      = RunEntry.enteredLoop :=
  ⟨rfl, rfl⟩

/-- C2 counterexample: a zero-byte read does terminate the read loop, but
the owning peer's `connected` flag stays `true` — `_loop` never assigns
`self.connected`, contradicting the claim that it becomes false. -/
theorem c2_counterexample :
    (RemoteService._loop_iter peerUp [] []).terminated = true
  ∧ ¬ ((RemoteService._loop_iter peerUp [] []).peer.connected = false) :=
  ⟨rfl, by decide⟩

/-- C2 amended: on a zero-byte read the loop terminates with the peer
object (hence `connected`) unchanged; `connected` becomes `true` exactly
in `_initialize_channel` (reached from both a successful dial and an
accepted connection), stays unchanged on a failed dial, becomes `false`
exactly at a zero-progress `send` inside `_push_right`, while a raising
`send` returns failure leaving `connected` unchanged; and the push loop
never mutates the peer in any other way. -/
theorem c2_amended (r : RemoteService) (inbox : List Char) (c : Char)
    (cs : List Char) (rest : List SendResult) (toPush : List Char)
    (sends : List SendResult) :
    ((RemoteService._loop_iter r inbox []).terminated = true
      ∧ (RemoteService._loop_iter r inbox []).peer = r)
  ∧ (r._initialize_channel).connected = true
  ∧ r.connect_remote_service false = r
  ∧ pushLoop r (c :: cs) (SendResult.sent 0 :: rest)
      = ({ r with connected := false }, false)
  ∧ pushLoop r (c :: cs) (SendResult.err :: rest) = (r, false)
  ∧ ((pushLoop r toPush sends).1 = r
      ∨ (pushLoop r toPush sends).1 = { r with connected := false }) := by
  refine ⟨⟨rfl, rfl⟩, rfl, rfl, ?_, rfl, pushLoop_connected_cases r sends toPush⟩
  simp [pushLoop]

/-- C5 counterexample: a `send` that raises makes `_push_right` return
failure, but the peer is *not* marked disconnected (`connected` is still
`true`), contradicting the claim that every push failure marks the Peer
disconnected. -/
theorem c5_counterexample :
    (RemoteService._push_right peerUp ['x'] [SendResult.err]).2 = false
  ∧ ¬ ((RemoteService._push_right peerUp ['x'] [SendResult.err]).1.connected
        = false) :=
  ⟨rfl, by decide⟩

/-- C5 amended: a failing push returns failure in both cases, but the
Peer is marked disconnected only on a zero-progress `send`; a raising
`send` leaves `connected` unchanged.  In either case, `execute_rpc` on a
connected peer whose push fails completes the pending request with
`__error = "Transfer interrupted"`. -/
theorem c5_amended (r : RemoteService) (c : Char) (cs : List Char)
    (rest : List SendResult) :
    pushLoop r (c :: cs) (SendResult.sent 0 :: rest)
      = ({ r with connected := false }, false)
  ∧ pushLoop r (c :: cs) (SendResult.err :: rest) = (r, false)
  ∧ ∀ (method : String) (msg : List Char) (sends : List SendResult),
      r.connected = true →
      (r._push_right msg sends).2 = false →
      (r.execute_rpc method true (some msg) sends).2
        = ExecOutcome.completedError "Transfer interrupted" := by
  refine ⟨by simp [pushLoop], rfl, ?_⟩
  intro method msg sends hconn hpush
  simp [RemoteService.execute_rpc, hconn, hpush]

/-- C5 witness: the amended theorem applied to a connected peer whose
single `send` raises. -/
theorem c5_witness :
    (RemoteService.execute_rpc peerUp "m" true (some ['x'])
        [SendResult.err]).2
      = ExecOutcome.completedError "Transfer interrupted" :=
  (c5_amended peerUp 'x' [] []).2.2 "m" ['x'] [SendResult.err] rfl rfl

end CmsAsync

namespace CmsAsync

/-- C3 counterexample: for an unknown method `nope`, the response's
`__error` does *not* begin with `"KeyError: Service has no method nope"`:
Python's `"%s" % exception` renders a `KeyError` argument with `repr`, so
the text is `KeyError: 'Service has no method nope'` with quotes around
the message. -/
theorem c3_counterexample :
    (dispatchRequest svcEmpty "nope"
        ⟨some "nope", some (J.obj []), some "0000000000000001"⟩ "TB").error
      = some ("KeyError: " ++ quoted "Service has no method nope" ++ "\n"
          ++ "TB")
  ∧ strStarts "KeyError: Service has no method nope"
      ((dispatchRequest svcEmpty "nope"
          ⟨some "nope", some (J.obj []), some "0000000000000001"⟩
          "TB").error.getD "") = false :=
  ⟨rfl, by decide⟩

/-- C3 amended: for an unknown method the response's `__error` begins
with `KeyError: 'Service has no method <name>'` — the message is wrapped
in single quotes by Python's rendering of `KeyError` — followed by a
newline and the traceback text; `__data` is null and `__id` is echoed
when present. -/
theorem c3_amended (s : Service) (name : String) (d : Option J)
    (idv : Option String) (tb : String) (h : s.methods name = none) :
    (dispatchRequest s name ⟨some name, d, idv⟩ tb).id = idv
  ∧ (dispatchRequest s name ⟨some name, d, idv⟩ tb).data = J.null
  ∧ (dispatchRequest s name ⟨some name, d, idv⟩ tb).error
      = some ("KeyError: " ++ quoted ("Service has no method " ++ name)
          ++ "\n" ++ tb)
  ∧ strStarts ("KeyError: " ++ quoted ("Service has no method " ++ name))
      ((dispatchRequest s name ⟨some name, d, idv⟩ tb).error.getD "")
      = true := by
  have hd : dispatchRequest s name ⟨some name, d, idv⟩ tb
      = { id := idv, data := J.null,
          error := some ("KeyError: "
            ++ quoted ("Service has no method " ++ name) ++ "\n" ++ tb) } := by
    simp only [dispatchRequest, Service.method_info, h, formatExc,
      PyExc.clsName, PyExc.toStr]
    rfl
  refine ⟨by rw [hd], by rw [hd], by rw [hd], ?_⟩
  rw [hd]
  exact strStarts_mono _ _ _ (strStarts_mono _ _ _ (strStarts_refl _))

/-- C3 witness: the amended theorem applied to the method `nope` on a
service with no methods. -/
theorem c3_witness :
    (dispatchRequest svcEmpty "nope"
        ⟨some "nope", some (J.obj []), some "id9"⟩ "TB").error
      = some ("KeyError: " ++ quoted ("Service has no method " ++ "nope")
          ++ "\n" ++ "TB")
  ∧ strStarts ("KeyError: " ++ quoted ("Service has no method " ++ "nope"))
      ((dispatchRequest svcEmpty "nope"
          ⟨some "nope", some (J.obj []), some "id9"⟩ "TB").error.getD "")
      = true :=
  ⟨(c3_amended svcEmpty "nope" (some (J.obj [])) (some "id9") "TB" rfl).2.2.1,
   (c3_amended svcEmpty "nope" (some (J.obj [])) (some "id9") "TB" rfl).2.2.2⟩

/-- C4 counterexample: a method that is both threaded and not exposed
gets `__error = "Threaded RPC unsupported"`, not the AuthorizationError:
`process_data` consults `method_info["threaded"]` *before*
`handle_message` performs the `rpc_callable` check. -/
theorem c4_counterexample :
    (dispatchRequest svcSecret "secret"
        ⟨some "secret", some (J.obj []), some "0000000000000002"⟩ "TB").error
      = some "Threaded RPC unsupported"
  ∧ ¬ ((dispatchRequest svcSecret "secret"
        ⟨some "secret", some (J.obj []), some "0000000000000002"⟩ "TB").error
      = some "AuthorizationError: Method secret not callable from RPC") :=
  ⟨rfl, by decide⟩

/-- C4 amended: the threaded check comes first — a threaded method gets
`"Threaded RPC unsupported"` regardless of exposure; a non-threaded,
not-exposed method gets an `__error` beginning with
`AuthorizationError: Method <bound-method repr> not callable from RPC` —
the `%s` interpolates the bound method object, not its bare name —
followed by a newline and the traceback, with `__data` null and `__id`
echoed. -/
theorem c4_amended (s : Service) (name : String) (m : PyMethod)
    (d : Option J) (idv : Option String) (tb : String)
    (hm : s.methods name = some m) :
    (m.threaded = true →
      dispatchRequest s name ⟨some name, d, idv⟩ tb
        = { id := idv, data := J.null,
            error := some "Threaded RPC unsupported" })
  ∧ (m.threaded = false → m.rpc_callable = false →
      (dispatchRequest s name ⟨some name, d, idv⟩ tb).error
          = some ("AuthorizationError: Method " ++ m.reprStr
              ++ " not callable from RPC" ++ "\n" ++ tb)
      ∧ (dispatchRequest s name ⟨some name, d, idv⟩ tb).data = J.null
      ∧ (dispatchRequest s name ⟨some name, d, idv⟩ tb).id = idv
      ∧ strStarts ("AuthorizationError: Method " ++ m.reprStr
            ++ " not callable from RPC")
          ((dispatchRequest s name ⟨some name, d, idv⟩ tb).error.getD "")
          = true) := by
  constructor
  · intro ht
    simp [dispatchRequest, Service.method_info, hm, ht]
  · intro ht hc
    have hd : dispatchRequest s name ⟨some name, d, idv⟩ tb
        = { id := idv, data := J.null,
            error := some (("AuthorizationError: Method " ++ m.reprStr
              ++ " not callable from RPC") ++ "\n" ++ tb) } := by
      simp only [dispatchRequest, Service.method_info, hm, ht,
        Service.handle_message, hc, formatExc, PyExc.clsName, PyExc.toStr,
        Bool.not_false, if_false, Bool.false_eq_true, if_true]
      rfl
    refine ⟨by rw [hd], by rw [hd], by rw [hd], ?_⟩
    rw [hd]
    exact strStarts_mono _ _ _ (strStarts_mono _ _ _ (strStarts_refl _))

/-- C4 witness: the amended theorem applied to the threaded `secret` and
to the merely-hidden `hidden`. -/
theorem c4_witness :
    dispatchRequest svcSecret "secret"
        ⟨some "secret", some (J.obj []), some "0000000000000002"⟩ "TB"
      = { id := some "0000000000000002", data := J.null,
          error := some "Threaded RPC unsupported" }
  ∧ (dispatchRequest svcHidden "hidden"
        ⟨some "hidden", some (J.obj []), some "0000000000000003"⟩ "TB").error
      = some ("AuthorizationError: Method " ++ hiddenMethod.reprStr
          ++ " not callable from RPC" ++ "\n" ++ "TB") :=
  ⟨(c4_amended svcSecret "secret" secretMethod (some (J.obj []))
      (some "0000000000000002") "TB" rfl).1 rfl,
   ((c4_amended svcHidden "hidden" hiddenMethod (some (J.obj []))
      (some "0000000000000003") "TB" rfl).2 rfl rfl).1⟩

end CmsAsync

namespace CmsAsync

/-- C6 counterexample: a timer whose `next_fire_time` exactly equals the
current time is *not* popped in that tick — the drain condition at line
182 is the strict `current > next_timeout`, not the claimed `≤`. -/
theorem c6_counterexample :
    entFive.next_timeout ≤ (5 : ℚ)
  ∧ (triggerDrain 5 [entFive]).1 = []
  ∧ ¬ entFive ∈ (triggerDrain 5 [entFive]).1 := by
  have hdrain : (triggerDrain 5 [entFive]).1 = [] := by
    norm_num [triggerDrain, entFive]
  exact ⟨by norm_num [entFive], hdrain, by simp [hdrain]⟩

/-- C6 amended: on each scheduler tick, exactly the timer entries whose
`next_fire_time` is *strictly less than* the current time are popped
from the (sorted) heap and spawned; an entry whose deadline equals the
current time stays in the heap for a later tick. -/
theorem c6_amended (current : ℚ) (h : List TimeoutEntry)
    (hs : List.Sorted entryLE h) :
    (∀ e ∈ h, e.next_timeout < current → e ∈ (triggerDrain current h).1)
  ∧ (∀ e ∈ (triggerDrain current h).1, e.next_timeout < current) := by
  revert hs
  induction h with
  | nil =>
    intro _
    simp [triggerDrain]
  | cons a rest ih =>
    intro hs
    rw [List.sorted_cons] at hs
    obtain ⟨ha, hrest⟩ := hs
    have ihr := ih hrest
    by_cases hlt : a.next_timeout < current
    · constructor
      · intro e he hce
        rcases List.mem_cons.mp he with rfl | hm
        · simp [triggerDrain, hlt]
        · simp only [triggerDrain, hlt, if_true]
          exact List.mem_cons_of_mem a (ihr.1 e hm hce)
      · intro e he
        simp only [triggerDrain, hlt, if_true] at he
        rcases List.mem_cons.mp he with rfl | hm
        · exact hlt
        · exact ihr.2 e hm
    · constructor
      · intro e he hce
        exfalso
        rcases List.mem_cons.mp he with rfl | hm
        · exact hlt hce
        · exact hlt (lt_of_le_of_lt (ha e hm) hce)
      · intro e he
        simp only [triggerDrain, hlt, if_false] at he
        simp at he
  
/-- C6 witness: on the sorted heap `[entA, entB]` at time 5, the expired
`entA` (deadline 3) is popped. -/
theorem c6_witness : entA ∈ (triggerDrain 5 [entA, entB]).1 :=
  (c6_amended 5 [entA, entB] (by decide)).1 entA (by simp)
    (by norm_num [entA])

/-- C7: a fired timer whose function returned a truthy value is
re-inserted with `next_fire_time = original deadline + period` — the
`helper` closure does not even receive the current time, so the new
deadline is anchored to the original one; a falsy return re-inserts
nothing. -/
theorem c7_periodic_reinsert (e : TimeoutEntry) (ret : J)
    (h : List TimeoutEntry) :
    (truthy ret = true →
      helper e (Except.ok ret) h
        = heapPush h { e with
            next_timeout := e.next_timeout + e.seconds })
  ∧ (truthy ret = false → helper e (Except.ok ret) h = h) := by
  constructor <;> intro ht <;> simp [helper, ht]

/-- C7 witness: the theorem applied to a truthy and to a falsy return. -/
theorem c7_witness :
    helper entC7 (Except.ok (J.bool true)) []
      = heapPush [] { entC7 with
          next_timeout := entC7.next_timeout + entC7.seconds }
  ∧ helper entC7 (Except.ok J.null) [] = [] :=
  ⟨(c7_periodic_reinsert entC7 (J.bool true) []).1 rfl,
   (c7_periodic_reinsert entC7 J.null []).2 rfl⟩

/-- C9: `connect_to` unconditionally overwrites both registry entries for
the coordinate: the registry now maps it to a freshly allocated,
not-yet-connected `RemoteService` and the callback map to the new
callback; every other store cell — in particular the previously
registered peer object, which by the allocation invariant lives below
`nextRef` — is untouched (nothing is closed), and other coordinates keep
their entries. -/
theorem c9_connect_to_overwrites (dir : Directory) (s : Service)
    (service : ServiceCoord) (on_connect : Option Nat) (addr : Address)
    (hdir : dir service = some addr)
    (halloc : ∀ c n, s.remote_services c = some n → n < s.nextRef) :
    (Service.connect_to dir s service on_connect).2 = Except.ok s.nextRef
  ∧ (Service.connect_to dir s service on_connect).1.remote_services service
      = some s.nextRef
  ∧ (Service.connect_to dir s service on_connect).1.store s.nextRef
      = some { remote_service_coord := some service, address := addr,
               connected := false, hasSocket := false }
  ∧ (Service.connect_to dir s service on_connect).1.on_remote_service_connected
        service = on_connect
  ∧ (∀ n, n ≠ s.nextRef →
      (Service.connect_to dir s service on_connect).1.store n = s.store n)
  ∧ (∀ c, c ≠ service →
      (Service.connect_to dir s service on_connect).1.remote_services c
        = s.remote_services c)
  ∧ (∀ c, c ≠ service →
      (Service.connect_to dir s service on_connect).1.on_remote_service_connected
          c = s.on_remote_service_connected c)
  ∧ (∀ c n, s.remote_services c = some n → n ≠ s.nextRef) := by
  refine ⟨?_, ?_, ?_, ?_, ?_, ?_, ?_, ?_⟩
  · simp [Service.connect_to, get_service_address, hdir]
  · simp [Service.connect_to, get_service_address, hdir]
  · simp [Service.connect_to, get_service_address, hdir]
  · simp [Service.connect_to, get_service_address, hdir]
  · intro n hn
    simp [Service.connect_to, get_service_address, hdir, hn]
  · intro c hc
    simp [Service.connect_to, get_service_address, hdir, hc]
  · intro c hc
    simp [Service.connect_to, get_service_address, hdir, hc]
  · intro c n hn
    exact Nat.ne_of_lt (halloc c n hn)

/-- C9 witness: connecting `svcEmpty` to `coordW` registers reference 0
with a fresh unconnected peer and stores the callback identity 7. -/
theorem c9_witness :
    (Service.connect_to dirW svcEmpty coordW (some 7)).1.remote_services
        coordW = some svcEmpty.nextRef
  ∧ (Service.connect_to dirW svcEmpty coordW (some 7)).1.store
        svcEmpty.nextRef
      = some { remote_service_coord := some coordW, address := addrLocal,
               connected := false, hasSocket := false }
  ∧ (Service.connect_to dirW svcEmpty coordW (some 7)).1.on_remote_service_connected
        coordW = some 7 :=
  have h := c9_connect_to_overwrites dirW svcEmpty coordW (some 7) addrLocal
    (by decide) (fun c n hn => by simp [svcEmpty, baseService] at hn)
  ⟨h.2.1, h.2.2.1, h.2.2.2.1⟩

/-- C10: if a fired timer's function raises, the spawned `helper` dies
before its `heappush`, so the entry is never re-inserted (the heap is
left exactly as it was); the drain in `_trigger` never touches `_exit`,
and the scheduler loop's continuation condition is unaffected by the
spawned greenlet's exception (gevent confines it to that greenlet, which
runs outside the loop body's `try`). -/
theorem c10_timer_exception (s : Service) (current maximum : ℚ)
    (e : TimeoutEntry) (exc : PyExc) (h : List TimeoutEntry) :
    helper e (Except.error exc) h = h
  ∧ (Service._trigger s current maximum).1._exit = s._exit
  ∧ loopContinues { (Service._trigger s current maximum).1 with
        _timeouts := helper e (Except.error exc)
          ((Service._trigger s current maximum).1)._timeouts }
      = loopContinues s := by
  refine ⟨rfl, ?_, ?_⟩ <;> simp [Service._trigger, loopContinues]

end CmsAsync

namespace CmsAsync

/-- Splitting never returns an empty list of segments. -/
theorem splitCRLF_ne_nil (l : List Char) : splitCRLF l ≠ [] := by
  induction l using splitCRLF.induct with
  | case1 => simp [splitCRLF]
  | case2 c => simp [splitCRLF]
  | case3 c₁ c₂ rest h ih => simp [splitCRLF, h]
  | case4 c₁ c₂ rest h ih =>
    simp only [splitCRLF, h, if_false]
    cases hs : splitCRLF (c₂ :: rest) with
    | nil => exact absurd hs ih
    | cons s ss => simp [consHead]

/-- A single-segment split means the terminator never occurred: the
segment is the whole input. -/
theorem split_eq_single (l s : List Char) (h : splitCRLF l = [s]) :
    s = l := by
  induction l using splitCRLF.induct generalizing s with
  | case1 => simp [splitCRLF] at h; exact h
  | case2 c => simp [splitCRLF] at h; exact h.symm
  | case3 c₁ c₂ rest hsep ih =>
    simp [splitCRLF, hsep] at h
    exact absurd h.2 (splitCRLF_ne_nil rest)
  | case4 c₁ c₂ rest hsep ih =>
    simp only [splitCRLF, hsep, if_false] at h
    cases hs : splitCRLF (c₂ :: rest) with
    | nil => exact absurd hs (splitCRLF_ne_nil _)
    | cons t ts =>
      rw [hs] at h
      simp [consHead] at h
      obtain ⟨rfl, hts⟩ := h
      have ht := ih t (by rw [hs, hts])
      simp [ht]

/-- Splitting a concatenation: the segments strictly inside `a` are
final, and the trailing segment of `a` continues into `b` — the key
streaming property behind the inbox buffer of `_loop`. -/
theorem splitCRLF_append (a b : List Char) :
    splitCRLF (a ++ b)
      = (splitCRLF a).dropLast
        ++ splitCRLF ((splitCRLF a).getLastD [] ++ b) := by
  induction a using splitCRLF.induct with
  | case1 => simp [splitCRLF]
  | case2 c => simp [splitCRLF]
  | case3 c₁ c₂ rest hsep ih =>
    obtain ⟨rfl, rfl⟩ := hsep
    have hr := splitCRLF_ne_nil rest
    have h1 : splitCRLF ('\r' :: '\n' :: (rest ++ b))
        = [] :: splitCRLF (rest ++ b) := by simp [splitCRLF]
    have h2 : splitCRLF ('\r' :: '\n' :: rest)
        = [] :: splitCRLF rest := by simp [splitCRLF]
    show splitCRLF (('\r' :: '\n' :: rest) ++ b) = _
    rw [List.cons_append, List.cons_append, h1, h2, ih,
      List.dropLast_cons_of_ne_nil hr, List.getLastD_cons]
    simp
  | case4 c₁ c₂ rest hsep ih =>
    have hS := splitCRLF_ne_nil (c₂ :: rest)
    have heq : splitCRLF ((c₁ :: c₂ :: rest) ++ b)
        = consHead c₁ (splitCRLF ((c₂ :: rest) ++ b)) := by
      rw [List.cons_append, List.cons_append]
      simp [splitCRLF, hsep]
    have heq2 : splitCRLF (c₁ :: c₂ :: rest)
        = consHead c₁ (splitCRLF (c₂ :: rest)) := by
      simp [splitCRLF, hsep]
    rw [heq, ih, heq2]
    cases hSs : splitCRLF (c₂ :: rest) with
    | nil => exact absurd hSs hS
    | cons t ts =>
      cases ts with
      | nil =>
        have ht : t = c₂ :: rest := split_eq_single _ _ hSs
        subst ht
        simp only [consHead, List.dropLast_single, List.getLastD_cons,
          List.getLastD_nil, List.nil_append]
        simp only [List.cons_append]
        simp [splitCRLF, hsep]
        rfl
      | cons u us =>
        simp [consHead, List.dropLast_cons₂, List.getLastD_cons]

/-- A terminator-free string splits into itself alone. -/
theorem noCRLF_split (l : List Char) :
    noCRLF l = true → splitCRLF l = [l] := by
  induction l using splitCRLF.induct with
  | case1 => intro _; simp [splitCRLF]
  | case2 c => intro _; simp [splitCRLF]
  | case3 c₁ c₂ rest hsep ih =>
    intro h
    obtain ⟨rfl, rfl⟩ := hsep
    simp [noCRLF] at h
  | case4 c₁ c₂ rest hsep ih =>
    intro h
    have h2 : noCRLF (c₂ :: rest) = true := by
      simp only [noCRLF, Bool.and_eq_true] at h
      exact h.2
    rw [show splitCRLF (c₁ :: c₂ :: rest)
        = consHead c₁ (splitCRLF (c₂ :: rest)) from by simp [splitCRLF, hsep]]
    rw [ih h2]
    simp [consHead]

/-- Splitting a terminator-free frame followed by the terminator peels
off exactly that frame. -/
theorem splitCRLF_frame (E s : List Char) :
    noCRLF E = true →
    splitCRLF (E ++ '\r' :: '\n' :: s) = E :: splitCRLF s := by
  induction E using splitCRLF.induct with
  | case1 => intro _; simp [splitCRLF]
  | case2 c => intro _; simp [splitCRLF, consHead]
  | case3 c₁ c₂ rest hsep ih =>
    intro h
    obtain ⟨rfl, rfl⟩ := hsep
    simp [noCRLF] at h
  | case4 c₁ c₂ rest hsep ih =>
    intro h
    have h2 : noCRLF (c₂ :: rest) = true := by
      simp only [noCRLF, Bool.and_eq_true] at h
      exact h.2
    have hih := ih h2
    simp only [List.cons_append] at hih ⊢
    rw [show splitCRLF (c₁ :: c₂ :: (rest ++ '\r' :: '\n' :: s))
        = consHead c₁ (splitCRLF (c₂ :: (rest ++ '\r' :: '\n' :: s)))
        from by simp [splitCRLF, hsep]]
    rw [hih]
    simp [consHead]

/-- Splitting a whole stream of terminated frames plus a terminator-free
remainder yields the frames followed by the remainder. -/
theorem splitCRLF_joinFrames (frames : List (List Char)) (R : List Char)
    (hf : ∀ E ∈ frames, noCRLF E = true) (hR : noCRLF R = true) :
    splitCRLF (joinFrames frames ++ R) = frames ++ [R] := by
  induction frames with
  | nil =>
    simp only [joinFrames, List.map_nil, List.flatten_nil, List.nil_append]
    exact noCRLF_split R hR
  | cons E fs ih =>
    have hE := hf E (by simp)
    have hfs : ∀ E' ∈ fs, noCRLF E' = true := fun E' h' => hf E' (by simp [h'])
    have hshape : joinFrames (E :: fs) ++ R
        = E ++ '\r' :: '\n' :: (joinFrames fs ++ R) := by
      simp [joinFrames, crlf, List.append_assoc]
    rw [hshape, splitCRLF_frame E (joinFrames fs ++ R) hE, ih hfs]
    simp

/-- The read loop's deliveries depend only on the concatenation of the
received chunks: buffering in `inbox` makes the chunking invisible. -/
theorem loopDeliveries_eq (chunks : List (List Char)) :
    [] ∉ chunks → ∀ inbox : List Char,
      loopDeliveries chunks inbox
        = (splitCRLF (inbox ++ chunks.flatten)).dropLast := by
  induction chunks with
  | nil => intro _ inbox; simp [loopDeliveries]
  | cons buf rest ih =>
    intro hne inbox
    have hbuf : buf ≠ [] := fun h => hne (by simp [h])
    have hrest : [] ∉ rest := fun h => hne (by simp [h])
    have hbe : buf.isEmpty = false := by
      cases buf with
      | nil => exact absurd rfl hbuf
      | cons c cs => rfl
    simp only [loopDeliveries, hbe, Bool.false_eq_true, if_false]
    rw [ih hrest]
    rw [List.flatten_cons, ← List.append_assoc]
    rw [splitCRLF_append (inbox ++ buf) rest.flatten]
    rw [List.dropLast_append_of_ne_nil _ (splitCRLF_ne_nil _)]

/-- C8: for any frames `E₁, E₂, …` free of the terminator, concatenated
with `\r\n` after each and followed by a terminator-free trailing
fragment, and for any chunking of the stream into non-empty reads, the
read loop hands exactly `E₁, E₂, …` to `process_data` in order before
EOF; the trailing fragment is carried over between reads and discarded
at EOF rather than delivered. -/
theorem c8_framing_roundtrip (chunks frames : List (List Char))
    (R : List Char)
    (hne : [] ∉ chunks)
    (hf : ∀ E ∈ frames, noCRLF E = true)
    (hR : noCRLF R = true)
    (hstream : chunks.flatten = joinFrames frames ++ R) :
    loopDeliveries chunks [] = frames := by
  rw [loopDeliveries_eq chunks hne [], List.nil_append, hstream,
    splitCRLF_joinFrames frames R hf hR, List.dropLast_concat]

/-- C8 witness: the stream `"ab\r\nc\r\nd"` chunked into three reads
(one of which splits the terminator across reads) delivers exactly
`"ab"` and `"c"`, dropping the unterminated `"d"`. -/
theorem c8_witness :
    loopDeliveries [['a'], ['b', '\r'], ['\n', 'c', '\r', '\n', 'd']] []
      = [['a', 'b'], ['c']] :=
  c8_framing_roundtrip [['a'], ['b', '\r'], ['\n', 'c', '\r', '\n', 'd']]
    [['a', 'b'], ['c']] ['d'] (by decide) (by decide) (by decide)
    (by decide)

end CmsAsync
